import Mathlib

/-!
Verification of the dirty-state tracking and file-operation command logic of
`src/packages/docmanager-extension/src/index.ts`.

The heart of the file is a shallow embedding of `handleContext`
(index.ts:312-337): for one tracked document context we keep the closure
variable `disposable`, the model's `dirty` flag, whether the `stateChanged`
subscription has been installed, and an audit trail of every `app.setDirty()`
call (token acquisition) and every `disposable.dispose()` call (token
release).  Events delivered to the context — readiness resolution,
`stateChanged` signals, and the `disposed` signal — drive a step function
translated clause by clause from the TypeScript.

A second, much smaller machine embeds the `opener.open` tracking logic
(index.ts:96-101) together with the `contexts` weak set (index.ts:81).
Finally `deleteFileExecute` embeds the `docmanager:delete-file` command
handler (index.ts:146-157).
-/

/-- Events that can be delivered to `handleContext` for one context:
`ready` (the context's readiness promise resolves), `state name newValue`
(the model changes the named property to `newValue` and fires
`stateChanged`), and `disposed` (the context's disposal signal fires). -/
inductive Ev where
  | ready : Ev
  | state : String → Bool → Ev
  | disposed : Ev
deriving DecidableEq

/-- The observable state of `handleContext` for one context, plus an audit
trail of its interactions with the host.

* `subscribed` — whether `context.model.stateChanged.connect(onStateChanged)`
  has run (it runs in the `context.ready.then` callback, index.ts:327).
* `disposable` — the closure variable `disposable` (index.ts:313), holding
  the id of the token returned by the last recorded `app.setDirty()` call,
  or `none` for `null`.
* `disposedFlag` — whether the context's `disposed` signal has fired.
* `modelDirty` — the current value of `context.model.dirty`.
* `next` — the id the host will give the next token `app.setDirty()` creates.
* `held` — ids of this context's tokens that were acquired and not yet
  disposed (the context's contribution to the global dirty indicator).
* `acquireCount` — how many times `app.setDirty()` was called for this
  context.
* `disposeCalls` — every `.dispose()` call made on a token, in order, by
  token id (a repeated id is a double release of the same token). -/
structure TrackerState where
  subscribed : Bool
  disposable : Option Nat
  disposedFlag : Bool
  modelDirty : Bool
  next : Nat
  held : List Nat
  acquireCount : Nat
  disposeCalls : List Nat
deriving DecidableEq

/-- The state of a context when `handleContext` is first invoked: nothing
subscribed, `disposable = null`, and the model's dirty flag is `d`. -/
def initState (d : Bool) : TrackerState :=
  { subscribed := false
    disposable := none
    disposedFlag := false
    modelDirty := d
    next := 0
    held := []
    acquireCount := 0
    disposeCalls := [] }

/-- `app.setDirty()`: the host hands out a fresh disposable token; the token
is now held.  Returns the updated state and the new token's id. -/
def setDirty (s : TrackerState) : TrackerState × Nat :=
  ({ s with
      next := s.next + 1
      held := s.next :: s.held
      acquireCount := s.acquireCount + 1 }, s.next)

/-- `tok.dispose()`: record the release call and drop the token from the
held set (a second call on the same id is recorded again but releases
nothing). -/
def disposeTok (s : TrackerState) (t : Nat) : TrackerState :=
  { s with held := s.held.erase t, disposeCalls := s.disposeCalls ++ [t] }

/-- The `onStateChanged` handler (index.ts:314-325), translated clause by
clause: only `dirty` changes matter; on `newValue === true` acquire a token
unless one is already referenced by `disposable`; otherwise, if `disposable`
is non-null, dispose it and null it out. -/
def onStateChanged (s : TrackerState) (name : String) (newValue : Bool) : TrackerState :=
  if name = "dirty" then
    if newValue then
      match s.disposable with
      | none =>
        let p := setDirty s
        { p.1 with disposable := some p.2 }
      | some _ => s
    else
      match s.disposable with
      | some t => { disposeTok s t with disposable := none }
      | none => s
  else s

/-- The `context.ready.then` callback (index.ts:326-331): mark the
subscription installed, then reconcile — if `context.model.dirty` is already
`true`, call `app.setDirty()` and store the token in `disposable`
(an unconditional assignment in the source). -/
def readyStep (s : TrackerState) : TrackerState :=
  let s1 := { s with subscribed := true }
  if s1.modelDirty then
    let p := setDirty s1
    { p.1 with disposable := some p.2 }
  else s1

/-- The `context.disposed.connect` handler (index.ts:332-336): if
`disposable` is non-null, dispose it.  Note the source neither nulls
`disposable` nor disconnects `onStateChanged` here. -/
def disposedStep (s : TrackerState) : TrackerState :=
  let s1 := { s with disposedFlag := true }
  match s1.disposable with
  | some t => disposeTok s1 t
  | none => s1

/-- One delivered event.  A `state` event always updates the model's own
`dirty` flag (when the changed property is `dirty`), but the handler
`onStateChanged` only runs once the subscription is installed. -/
def step (s : TrackerState) : Ev → TrackerState
  | .ready => readyStep s
  | .state n v =>
    let s1 := if n = "dirty" then { s with modelDirty := v } else s
    if s.subscribed then onStateChanged s1 n v else s1
  | .disposed => disposedStep s

/-- Deliver a list of events in order. -/
def runEvs (s : TrackerState) : List Ev → TrackerState
  | [] => s
  | e :: es => runEvs (step s e) es

/-- Number of `ready` events in a trace (a context's readiness promise
resolves at most once, so well-formed traces have at most one). -/
def countReady : List Ev → Nat
  | [] => 0
  | .ready :: es => countReady es + 1
  | _ :: es => countReady es

/-- What the specification of the dirty tracker says an observer must have
seen.  This definition follows the spec's words, not the source: `observed`
is "the context's last observed `dirty` value" (`false` before anything was
observed), `ready` records that the readiness signal has resolved (at which
point the current model value is observed), and `disposed` records that the
disposal notification was delivered. -/
structure SpecObs where
  observed : Bool
  ready : Bool
  disposed : Bool
deriving DecidableEq

/-- The spec-side observer before any event is delivered. -/
def specObsInit : SpecObs := ⟨false, false, false⟩

/-- Spec-side observation of one event, given the model's current `dirty`
value: readiness observes the model's current value; a `dirty` state change
is observed only once the tracker is subscribed (i.e. after readiness). -/
def specObsStep (dirty : Bool) (o : SpecObs) : Ev → SpecObs
  | .ready => { o with ready := true, observed := dirty }
  | .state n v => if o.ready = true ∧ n = "dirty" then { o with observed := v } else o
  | .disposed => { o with disposed := true }

/-- Spec-side observation of a whole trace, threading the model's `dirty`
value (initially `dirty`) alongside the observer. -/
def specRun (dirty : Bool) (o : SpecObs) : List Ev → SpecObs
  | [] => o
  | e :: es =>
    let dirty1 := match e with
      | .state n v => if n = "dirty" then v else dirty
      | _ => dirty
    specRun dirty1 (specObsStep dirty o e) es

/-- Events observable by the widget opener (index.ts:82-103) and the
`contexts` weak set (index.ts:81): a widget for context `c` is opened, or
context `c` is disposed.  Contexts are identified by a stable id. -/
inductive OEv where
  | openWidget : Nat → OEv
  | disposeCtx : Nat → OEv
deriving DecidableEq

/-- The tracking state of the plugin: the `contexts` weak set, and the
trail of `handleContext` invocations (by context id, in order). -/
structure OpenerState where
  contexts : List Nat
  handleCalls : List Nat
deriving DecidableEq

/-- Plugin activation state: no context tracked yet. -/
def openerInit : OpenerState := ⟨[], []⟩

/-- The dirty-tracking part of `opener.open` (index.ts:96-101): if the
widget's context is not in the weak set, call `handleContext` and add it. -/
def openerOpen (s : OpenerState) (c : Nat) : OpenerState :=
  if c ∈ s.contexts then s
  else { contexts := c :: s.contexts, handleCalls := s.handleCalls ++ [c] }

/-- One opener-level event.  Disposing a context leaves the state unchanged:
the source registers no handler that mutates the `contexts` weak set — the
disposal handler (index.ts:332-336) only touches `disposable`. -/
def ostep (s : OpenerState) : OEv → OpenerState
  | .openWidget c => openerOpen s c
  | .disposeCtx _ => s

/-- Deliver a list of opener-level events in order. -/
def orun (s : OpenerState) : List OEv → OpenerState
  | [] => s
  | e :: es => orun (ostep s e) es

/-- The command id `docmanager:delete-file` (index.ts:47). -/
def deleteFileCommandId : String := "docmanager:delete-file"

/-- Outcome of executing the `docmanager:delete-file` command: either the
handler threw before reaching the document manager, or it delegated to
`docManager.deleteFile(path)` and returned its result. -/
inductive DeleteFileResult where
  | thrown : String → DeleteFileResult
  | delegated : String → DeleteFileResult
deriving DecidableEq

/-- The `docmanager:delete-file` execute handler (index.ts:146-157): a
missing `path` argument defaults to `''`; a falsy (empty) path throws;
otherwise the call is delegated to `docManager.deleteFile(path)`. -/
def deleteFileExecute (argsPath : Option String) : DeleteFileResult :=
  let path := match argsPath with
    | none => ""
    | some s => s
  if path = "" then
    .thrown ("A non-empty path is required for " ++ deleteFileCommandId ++ ".")
  else
    .delegated path

/-- The invariant `handleContext` maintains before disposal (and as long as
readiness has resolved at most once): the tokens this context still holds
are exactly what the closure variable `disposable` references; a token is
never acquired before subscription; every recorded release targets a
distinct, previously issued token; and the acquire count exceeds the
release count by exactly one while a token is referenced. -/
def Good (s : TrackerState) : Prop :=
  (s.disposable = none ∨ s.subscribed = true) ∧
  s.held = s.disposable.toList ∧
  (∀ t ∈ s.held, t ∉ s.disposeCalls ∧ t < s.next) ∧
  s.disposeCalls.Nodup ∧
  (∀ t ∈ s.disposeCalls, t < s.next) ∧
  s.acquireCount = s.disposeCalls.length + (if s.disposable.isSome then 1 else 0)

/-- Correspondence between the tracker's state and the spec-side observer:
the tracker is subscribed exactly when the spec says readiness resolved, and
`disposable` references a token exactly when the last observed dirty value
is `true`. -/
def AgreesSpec (dirty : Bool) (s : TrackerState) (o : SpecObs) : Prop :=
  Good s ∧ s.modelDirty = dirty ∧ s.subscribed = o.ready ∧ o.disposed = false ∧
  s.disposable.isSome = o.observed ∧ (o.ready = false → o.observed = false)

example : runEvs (initState false) [Ev.ready, Ev.state "dirty" true] =
    { subscribed := true, disposable := some 0, disposedFlag := false,
      modelDirty := true, next := 1, held := [0], acquireCount := 1,
      disposeCalls := [] } := by decide

example : runEvs (initState true) [Ev.ready, Ev.state "dirty" false, Ev.disposed] =
    { subscribed := true, disposable := none, disposedFlag := true,
      modelDirty := false, next := 1, held := [], acquireCount := 1,
      disposeCalls := [0] } := by decide

example :
    (runEvs (initState false)
      [Ev.ready, Ev.state "dirty" true, Ev.disposed, Ev.state "dirty" false]).disposeCalls
    = [0, 0] := by decide

theorem good_initState (d : Bool) : Good (initState d) := by
  refine ⟨Or.inl rfl, rfl, ?_, List.nodup_nil, ?_, rfl⟩ <;> simp [initState]

theorem nodup_append_singleton {l : List Nat} {t : Nat}
    (h : l.Nodup) (ht : t ∉ l) : (l ++ [t]).Nodup := by
  simp [List.nodup_append, h, ht]

theorem step_state_other (s : TrackerState) {n : String} (hn : n ≠ "dirty") (v : Bool) :
    step s (.state n v) = s := by
  simp [step, onStateChanged, hn]

theorem step_state_unsub (s : TrackerState) (hsub : s.subscribed = false) (v : Bool) :
    step s (.state "dirty" v) = { s with modelDirty := v } := by
  simp [step, hsub]

theorem step_dirty_true_acquire (s : TrackerState) (hsub : s.subscribed = true)
    (hd : s.disposable = none) :
    step s (.state "dirty" true) =
      { s with
        modelDirty := true, disposable := some s.next, next := s.next + 1,
        held := s.next :: s.held, acquireCount := s.acquireCount + 1 } := by
  simp [step, onStateChanged, hsub, hd, setDirty]

theorem step_dirty_true_noop (s : TrackerState) (hsub : s.subscribed = true)
    {t : Nat} (hd : s.disposable = some t) :
    step s (.state "dirty" true) = { s with modelDirty := true } := by
  simp [step, onStateChanged, hsub, hd]

theorem step_dirty_false_release (s : TrackerState) (hsub : s.subscribed = true)
    {t : Nat} (hd : s.disposable = some t) :
    step s (.state "dirty" false) =
      { s with
        modelDirty := false, disposable := none, held := s.held.erase t,
        disposeCalls := s.disposeCalls ++ [t] } := by
  simp [step, onStateChanged, hsub, hd, disposeTok]

theorem step_dirty_false_noop (s : TrackerState) (hsub : s.subscribed = true)
    (hd : s.disposable = none) :
    step s (.state "dirty" false) = { s with modelDirty := false } := by
  simp [step, onStateChanged, hsub, hd]

theorem step_ready_dirty (s : TrackerState) (hm : s.modelDirty = true) :
    step s .ready =
      { s with
        subscribed := true, disposable := some s.next, next := s.next + 1,
        held := s.next :: s.held, acquireCount := s.acquireCount + 1 } := by
  simp [step, readyStep, hm, setDirty]

theorem step_ready_clean (s : TrackerState) (hm : s.modelDirty = false) :
    step s .ready = { s with subscribed := true } := by
  simp [step, readyStep, hm]

theorem step_disposed_some (s : TrackerState) {t : Nat} (hd : s.disposable = some t) :
    step s .disposed =
      { s with
        disposedFlag := true, held := s.held.erase t,
        disposeCalls := s.disposeCalls ++ [t] } := by
  simp [step, disposedStep, hd, disposeTok]

theorem step_disposed_none (s : TrackerState) (hd : s.disposable = none) :
    step s .disposed = { s with disposedFlag := true } := by
  simp [step, disposedStep, hd]

theorem good_acquire (s : TrackerState) (hs : Good s) (hd : s.disposable = none)
    (b : Bool) :
    Good { s with
      subscribed := true, disposable := some s.next, next := s.next + 1,
      held := s.next :: s.held, acquireCount := s.acquireCount + 1,
      modelDirty := b } := by
  obtain ⟨h1, h2, h3, h4, h5, h6⟩ := hs
  have hheld : s.held = [] := by simpa [hd] using h2
  simp only [hd, Option.isSome_none, Bool.false_eq_true, if_false] at h6
  refine ⟨Or.inr rfl, by simp [hheld], ?_, h4, ?_, ?_⟩
  · intro t ht
    rw [show ({ s with
        subscribed := true, disposable := some s.next, next := s.next + 1,
        held := s.next :: s.held, acquireCount := s.acquireCount + 1,
        modelDirty := b } : TrackerState).held = s.next :: s.held from rfl,
      hheld] at ht
    simp only [List.mem_cons, List.not_mem_nil, or_false] at ht
    subst ht
    refine ⟨fun hmem => absurd (h5 _ hmem) (lt_irrefl _), ?_⟩
    show s.next < s.next + 1
    omega
  · intro t ht
    have := h5 t (by exact ht)
    show t < s.next + 1
    omega
  · show s.acquireCount + 1 = s.disposeCalls.length + _
    simp [h6]

theorem good_step_state (s : TrackerState) (hs : Good s) (n : String) (v : Bool) :
    Good (step s (.state n v)) := by
  by_cases hn : n = "dirty"
  · subst hn
    obtain ⟨h1, h2, h3, h4, h5, h6⟩ := hs
    cases hsub : s.subscribed with
    | false =>
      rw [step_state_unsub s hsub]
      exact ⟨h1, h2, h3, h4, h5, h6⟩
    | true =>
      cases hd : s.disposable with
      | none =>
        cases v with
        | false =>
          rw [step_dirty_false_noop s hsub hd]
          exact ⟨h1, h2, h3, h4, h5, h6⟩
        | true =>
          rw [step_dirty_true_acquire s hsub hd, hsub]
          exact good_acquire s ⟨h1, h2, h3, h4, h5, h6⟩ hd true
      | some t0 =>
        cases v with
        | true =>
          rw [step_dirty_true_noop s hsub hd]
          exact ⟨h1, h2, h3, h4, h5, h6⟩
        | false =>
          rw [step_dirty_false_release s hsub hd]
          have hheld : s.held = [t0] := by simpa [hd] using h2
          have ht0 : t0 ∉ s.disposeCalls ∧ t0 < s.next := h3 t0 (by simp [hheld])
          simp only [hd, Option.isSome_some, if_true] at h6
          refine ⟨Or.inl rfl, by simp [hheld], by simp [hheld], ?_, ?_, ?_⟩
          · show (s.disposeCalls ++ [t0]).Nodup
            exact nodup_append_singleton h4 ht0.1
          · intro t ht
            have ht2 : t ∈ s.disposeCalls ++ [t0] := ht
            show t < s.next
            rcases List.mem_append.mp ht2 with h | h
            · exact h5 t h
            · simp only [List.mem_singleton] at h
              subst h
              exact ht0.2
          · show s.acquireCount = (s.disposeCalls ++ [t0]).length + _
            simp [h6]
  · rw [step_state_other s hn v]
    exact hs

theorem good_step_ready (s : TrackerState) (hs : Good s) (hsub : s.subscribed = false) :
    Good (step s .ready) := by
  have hdn : s.disposable = none := by
    rcases hs.1 with h | h
    · exact h
    · rw [hsub] at h
      exact absurd h (by simp)
  cases hm : s.modelDirty with
  | false =>
    rw [step_ready_clean s hm]
    obtain ⟨h1, h2, h3, h4, h5, h6⟩ := hs
    exact ⟨Or.inr rfl, h2, h3, h4, h5, h6⟩
  | true =>
    rw [step_ready_dirty s hm]
    exact good_acquire s hs hdn s.modelDirty

theorem good_step_disposed (s : TrackerState) (hs : Good s) :
    (step s Ev.disposed).held = [] ∧
    (step s Ev.disposed).subscribed = s.subscribed ∧
    (step s Ev.disposed).acquireCount = s.acquireCount ∧
    (step s Ev.disposed).disposeCalls.Nodup ∧
    (step s Ev.disposed).disposeCalls.length ≤ s.acquireCount := by
  obtain ⟨h1, h2, h3, h4, h5, h6⟩ := hs
  cases hd : s.disposable with
  | none =>
    have hheld : s.held = [] := by simpa [hd] using h2
    rw [step_disposed_none s hd]
    simp only [hd, Option.isSome_none, Bool.false_eq_true, if_false] at h6
    refine ⟨hheld, rfl, rfl, h4, ?_⟩
    show s.disposeCalls.length ≤ s.acquireCount
    omega
  | some t0 =>
    have hheld : s.held = [t0] := by simpa [hd] using h2
    have ht0 : t0 ∉ s.disposeCalls ∧ t0 < s.next := h3 t0 (by simp [hheld])
    rw [step_disposed_some s hd]
    simp only [hd, Option.isSome_some, if_true] at h6
    refine ⟨by simp [hheld], rfl, rfl, ?_, ?_⟩
    · show (s.disposeCalls ++ [t0]).Nodup
      exact nodup_append_singleton h4 ht0.1
    · show (s.disposeCalls ++ [t0]).length ≤ s.acquireCount
      simp [h6]

/-- The `state` step never changes the subscription flag. -/
theorem subscribed_step_state (s : TrackerState) (n : String) (v : Bool) :
    (step s (.state n v)).subscribed = s.subscribed := by
  by_cases hn : n = "dirty"
  · subst hn
    cases hsub : s.subscribed with
    | false =>
      rw [step_state_unsub s hsub]
      exact hsub
    | true =>
      cases hd : s.disposable with
      | none =>
        cases v with
        | false =>
          rw [step_dirty_false_noop s hsub hd]
          exact hsub
        | true =>
          rw [step_dirty_true_acquire s hsub hd]
          exact hsub
      | some t0 =>
        cases v with
        | false =>
          rw [step_dirty_false_release s hsub hd]
          exact hsub
        | true =>
          rw [step_dirty_true_noop s hsub hd]
          exact hsub
  · rw [step_state_other s hn v]

theorem countReady_eq_zero {evs : List Ev} (h : countReady evs = 0) :
    Ev.ready ∉ evs := by
  induction evs with
  | nil => simp
  | cons e es ih =>
    cases e with
    | ready => simp [countReady] at h
    | state n v =>
      simp only [countReady] at h
      simp [ih h]
    | disposed =>
      simp only [countReady] at h
      simp [ih h]

theorem runEvs_append (a b : List Ev) : ∀ s : TrackerState,
    runEvs s (a ++ b) = runEvs (runEvs s a) b := by
  induction a with
  | nil => intro s; rfl
  | cons e es ih =>
    intro s
    simp only [List.cons_append, runEvs]
    exact ih (step s e)

/-- While readiness never resolves, the tracker stays inert: never
subscribed, never holding or acquiring anything, never releasing anything —
each event only updates the model's own flag or the disposal flag. -/
theorem noReady_run (evs : List Ev) : ∀ s : TrackerState,
    Ev.ready ∉ evs → s.subscribed = false → s.disposable = none →
    (runEvs s evs).subscribed = false ∧ (runEvs s evs).disposable = none ∧
    (runEvs s evs).acquireCount = s.acquireCount ∧
    (runEvs s evs).held = s.held ∧
    (runEvs s evs).disposeCalls = s.disposeCalls ∧
    (s.disposedFlag = true → (runEvs s evs).disposedFlag = true) := by
  induction evs with
  | nil => intro s _ hsub hd; exact ⟨hsub, hd, rfl, rfl, rfl, fun h => h⟩
  | cons e es ih =>
    intro s hr hsub hd
    have hr' : Ev.ready ∉ es := fun h => hr (List.mem_cons_of_mem _ h)
    cases e with
    | ready => exact absurd (List.mem_cons_self _ _) hr
    | state n v =>
      simp only [runEvs]
      by_cases hn : n = "dirty"
      · subst hn
        rw [step_state_unsub s hsub]
        exact ih _ hr' hsub hd
      · rw [step_state_other s hn v]
        exact ih _ hr' hsub hd
    | disposed =>
      simp only [runEvs]
      rw [step_disposed_none s hd]
      have h := ih { s with disposedFlag := true } hr' hsub hd
      exact ⟨h.1, h.2.1, h.2.2.1, h.2.2.2.1, h.2.2.2.2.1, fun _ => h.2.2.2.2.2 rfl⟩

theorem good_run (evs : List Ev) : ∀ s : TrackerState, Good s →
    Ev.disposed ∉ evs →
    (s.subscribed = true → Ev.ready ∉ evs) →
    countReady evs ≤ 1 →
    Good (runEvs s evs) := by
  induction evs with
  | nil => intro s hs _ _ _; exact hs
  | cons e es ih =>
    intro s hs hnd hr hc
    have hnd' : Ev.disposed ∉ es := fun h => hnd (List.mem_cons_of_mem _ h)
    cases e with
    | ready =>
      have hsub : s.subscribed = false := by
        cases h : s.subscribed with
        | false => rfl
        | true => exact absurd (List.mem_cons_self _ _) (hr h)
      have hc0 : countReady es = 0 := by
        simp only [countReady] at hc
        omega
      refine ih _ (good_step_ready s hs hsub) hnd' ?_ (by omega)
      intro _
      exact countReady_eq_zero hc0
    | state n v =>
      refine ih _ (good_step_state s hs n v) hnd' ?_ ?_
      · rw [subscribed_step_state]
        intro h
        exact fun hm => hr h (List.mem_cons_of_mem _ hm)
      · simpa [countReady] using hc
    | disposed => exact absurd (List.mem_cons_self _ _) hnd

theorem agreesSpec_holds (dirty : Bool) (s : TrackerState) (o : SpecObs)
    (h : AgreesSpec dirty s o) :
    (s.held ≠ [] ↔ (o.observed = true ∧ o.disposed = false)) := by
  obtain ⟨⟨g1, g2, g3, g4, g5, g6⟩, hm, hsub, hdisp, hobs, himp⟩ := h
  rw [hdisp, ← hobs]
  simp only [and_true]
  cases hd : s.disposable with
  | none =>
    have hheld : s.held = [] := by simpa [hd] using g2
    simp [hheld, hd]
  | some t =>
    have hheld : s.held = [t] := by simpa [hd] using g2
    simp [hheld, hd]

theorem agreesSpec_step_state (dirty : Bool) (s : TrackerState) (o : SpecObs)
    (h : AgreesSpec dirty s o) (n : String) (v : Bool) :
    AgreesSpec (if n = "dirty" then v else dirty) (step s (.state n v))
      (specObsStep dirty o (.state n v)) := by
  obtain ⟨hg, hm, hsub, hdisp, hobs, himp⟩ := h
  have hg' := good_step_state s hg n v
  by_cases hn : n = "dirty"
  · subst hn
    rw [if_pos rfl]
    cases hr : o.ready with
    | false =>
      have hsubf : s.subscribed = false := by rw [hsub, hr]
      have hspec : specObsStep dirty o (.state "dirty" v) = o := by
        simp [specObsStep, hr]
      rw [step_state_unsub s hsubf] at hg'
      rw [hspec, step_state_unsub s hsubf]
      refine ⟨hg', rfl, ?_, hdisp, ?_, himp⟩
      · show s.subscribed = o.ready
        exact hsub
      · show s.disposable.isSome = o.observed
        exact hobs
    | true =>
      have hsubt : s.subscribed = true := by rw [hsub, hr]
      have hspec : specObsStep dirty o (.state "dirty" v) = { o with observed := v } := by
        simp [specObsStep, hr]
      rw [hspec]
      cases hd : s.disposable with
      | none =>
        cases v with
        | false =>
          rw [step_dirty_false_noop s hsubt hd] at hg' ⊢
          refine ⟨hg', rfl, ?_, hdisp, ?_, ?_⟩
          · show s.subscribed = o.ready
            exact hsub
          · show s.disposable.isSome = false
            simp [hd]
          · intro _
            rfl
        | true =>
          rw [step_dirty_true_acquire s hsubt hd] at hg' ⊢
          refine ⟨hg', rfl, ?_, hdisp, rfl, ?_⟩
          · show s.subscribed = o.ready
            exact hsub
          · show o.ready = false → _
            intro hro
            rw [hr] at hro
            exact Bool.noConfusion hro
      | some t0 =>
        cases v with
        | false =>
          rw [step_dirty_false_release s hsubt hd] at hg' ⊢
          refine ⟨hg', rfl, ?_, hdisp, rfl, ?_⟩
          · show s.subscribed = o.ready
            exact hsub
          · intro _
            rfl
        | true =>
          rw [step_dirty_true_noop s hsubt hd] at hg' ⊢
          refine ⟨hg', rfl, ?_, hdisp, ?_, ?_⟩
          · show s.subscribed = o.ready
            exact hsub
          · show s.disposable.isSome = true
            simp [hd]
          · show o.ready = false → _
            intro hro
            rw [hr] at hro
            exact Bool.noConfusion hro
  · have hspec : specObsStep dirty o (.state n v) = o := by
      simp [specObsStep, hn]
    rw [if_neg hn, hspec, step_state_other s hn v]
    exact ⟨hg, hm, hsub, hdisp, hobs, himp⟩

theorem agreesSpec_step_ready (dirty : Bool) (s : TrackerState) (o : SpecObs)
    (h : AgreesSpec dirty s o) (hnr : o.ready = false) :
    AgreesSpec dirty (step s .ready) (specObsStep dirty o .ready) := by
  obtain ⟨hg, hm, hsub, hdisp, hobs, himp⟩ := h
  have hsubf : s.subscribed = false := by rw [hsub, hnr]
  have hg' := good_step_ready s hg hsubf
  have hdn : s.disposable = none := by
    rcases hg.1 with hh | hh
    · exact hh
    · rw [hsubf] at hh
      exact absurd hh (by simp)
  show AgreesSpec dirty (step s .ready) { o with ready := true, observed := dirty }
  cases hd : dirty with
  | false =>
    have hmf : s.modelDirty = false := by rw [hm]; exact hd
    rw [step_ready_clean s hmf] at hg' ⊢
    refine ⟨hg', ?_, rfl, hdisp, ?_, ?_⟩
    · show s.modelDirty = false
      exact hmf
    · show s.disposable.isSome = false
      simp [hdn]
    · intro hro
      exact Bool.noConfusion hro
  | true =>
    have hmt : s.modelDirty = true := by rw [hm]; exact hd
    rw [step_ready_dirty s hmt] at hg' ⊢
    refine ⟨hg', ?_, rfl, hdisp, rfl, ?_⟩
    · show s.modelDirty = true
      exact hmt
    · intro hro
      exact Bool.noConfusion hro

theorem mem_dropLast_cons {x e : Ev} {es : List Ev} (h : x ∈ es.dropLast) :
    x ∈ (e :: es).dropLast := by
  cases es with
  | nil => simp at h
  | cons y ys =>
    rw [List.dropLast_cons₂]
    exact List.mem_cons_of_mem _ h

/-- The central refinement run: along any trace in which readiness resolves
at most once and the disposal notification (if delivered) is the final
event, the tracker holds a token for the context exactly when the spec-side
observer says the last observed dirty value is `true` and the context is
not disposed. -/
theorem agrees_run (evs : List Ev) : ∀ (dirty : Bool) (s : TrackerState) (o : SpecObs),
    AgreesSpec dirty s o →
    (o.ready = true → Ev.ready ∉ evs) →
    countReady evs ≤ 1 →
    Ev.disposed ∉ evs.dropLast →
    ((runEvs s evs).held ≠ [] ↔
      ((specRun dirty o evs).observed = true ∧ (specRun dirty o evs).disposed = false)) := by
  induction evs with
  | nil =>
    intro dirty s o h _ _ _
    exact agreesSpec_holds dirty s o h
  | cons e es ih =>
    intro dirty s o h hr hc hterm
    cases e with
    | disposed =>
      cases es with
      | nil =>
        have hheld := (good_step_disposed s h.1).1
        simp [runEvs, specRun, specObsStep, hheld]
      | cons y ys =>
        rw [List.dropLast_cons₂] at hterm
        exact absurd (List.mem_cons_self _ _) hterm
    | ready =>
      have hnr : o.ready = false := by
        cases hro : o.ready with
        | false => rfl
        | true => exact absurd (List.mem_cons_self _ _) (hr hro)
      have hc0 : countReady es = 0 := by
        simp only [countReady] at hc
        omega
      simp only [runEvs, specRun]
      refine ih dirty (step s .ready) (specObsStep dirty o .ready)
        (agreesSpec_step_ready dirty s o h hnr) ?_ (by omega) ?_
      · intro _
        exact countReady_eq_zero hc0
      · intro hmem
        exact hterm (mem_dropLast_cons hmem)
    | state n v =>
      simp only [runEvs, specRun]
      refine ih _ (step s (.state n v)) (specObsStep dirty o (.state n v))
        (agreesSpec_step_state dirty s o h n v) ?_ ?_ ?_
      · intro hro
        have : Ev.ready ∉ Ev.state n v :: es := by
          apply hr
          rw [← hro, specObsStep]
          by_cases hcond : o.ready = true ∧ n = "dirty" <;> simp [hcond]
        exact fun hmem => this (List.mem_cons_of_mem _ hmem)
      · simpa [countReady] using hc
      · intro hmem
        exact hterm (mem_dropLast_cons hmem)

/-- Invariant of the weak-set tracking: the set never holds duplicates, and
its members are exactly the contexts for which `handleContext` has run —
each exactly once. -/
theorem orun_inv (evs : List OEv) : ∀ s : OpenerState,
    s.contexts.Nodup → s.handleCalls.Nodup →
    (∀ c, c ∈ s.contexts ↔ c ∈ s.handleCalls) →
    (orun s evs).contexts.Nodup ∧ (orun s evs).handleCalls.Nodup ∧
    (∀ c, c ∈ (orun s evs).contexts ↔ c ∈ (orun s evs).handleCalls) := by
  induction evs with
  | nil => intro s h1 h2 h3; exact ⟨h1, h2, h3⟩
  | cons e es ih =>
    intro s h1 h2 h3
    cases e with
    | disposeCtx c => exact ih s h1 h2 h3
    | openWidget c =>
      simp only [orun, ostep]
      by_cases hc : c ∈ s.contexts
      · rw [show openerOpen s c = s from by simp [openerOpen, hc]]
        exact ih s h1 h2 h3
      · rw [show openerOpen s c =
            { contexts := c :: s.contexts, handleCalls := s.handleCalls ++ [c] } from by
          simp [openerOpen, hc]]
        refine ih _ ?_ ?_ ?_
        · exact List.nodup_cons.mpr ⟨hc, h1⟩
        · exact nodup_append_singleton h2 (fun hmem => hc ((h3 c).mpr hmem))
        · intro x
          show x ∈ c :: s.contexts ↔ x ∈ s.handleCalls ++ [c]
          simp [List.mem_cons, List.mem_append, h3 x, or_comm]

theorem countReady_map_state (bs : List Bool) :
    countReady (bs.map (Ev.state "dirty")) = 0 := by
  induction bs with
  | nil => rfl
  | cons b bs ih => simpa [countReady] using ih

theorem ready_not_mem_map_state (bs : List Bool) :
    Ev.ready ∉ bs.map (Ev.state "dirty") := by
  simp [List.mem_map]

theorem disposed_not_mem_map_state (bs : List Bool) :
    Ev.disposed ∉ bs.map (Ev.state "dirty") := by
  simp [List.mem_map]

/-- C1 counterexample: the claim quantifies over any sequence of
ready/stateChanged/disposed events delivered to `handleContext`.  On the
trace ready, disposed, stateChanged(dirty, true) the handler — whose
subscription the source never disconnects — acquires a fresh token after
disposal, so the indicator is held although the context has been disposed:
the stated iff fails at this concrete input. -/
theorem c1_counterexample :
    ¬(((runEvs (initState false) [Ev.ready, Ev.disposed, Ev.state "dirty" true]).held ≠ []) ↔
      (((specRun false specObsInit
          [Ev.ready, Ev.disposed, Ev.state "dirty" true]).observed = true) ∧
        ((specRun false specObsInit
          [Ev.ready, Ev.disposed, Ev.state "dirty" true]).disposed = false))) := by
  decide

/-- C1 (amended): for every tracked context and every event trace in which
readiness resolves at most once and the disposal notification, if delivered,
is the final event (the collaborator contract), the global dirty indicator
is held on behalf of the context iff the context's last observed dirty value
is true and the context has not been disposed. -/
theorem c1_amended_no_hold_without_dirt (d : Bool) (evs : List Ev)
    (hready : countReady evs ≤ 1)
    (hterm : Ev.disposed ∉ evs.dropLast) :
    ((runEvs (initState d) evs).held ≠ [] ↔
      ((specRun d specObsInit evs).observed = true ∧
        (specRun d specObsInit evs).disposed = false)) := by
  refine agrees_run evs d (initState d) specObsInit
    ⟨good_initState d, rfl, rfl, rfl, rfl, fun _ => rfl⟩ ?_ hready hterm
  intro h
  exact Bool.noConfusion h

/-- Witness for C1 (amended) at the concrete trace ready,
stateChanged(dirty, true). -/
theorem c1_amended_witness :
    countReady [Ev.ready, Ev.state "dirty" true] ≤ 1 ∧
    Ev.disposed ∉ ([Ev.ready, Ev.state "dirty" true]).dropLast ∧
    ((runEvs (initState false) [Ev.ready, Ev.state "dirty" true]).held ≠ [] ↔
      ((specRun false specObsInit [Ev.ready, Ev.state "dirty" true]).observed = true ∧
        (specRun false specObsInit [Ev.ready, Ev.state "dirty" true]).disposed = false)) :=
  ⟨by decide, by decide,
    c1_amended_no_hold_without_dirt false [Ev.ready, Ev.state "dirty" true]
      (by decide) (by decide)⟩

/-- C2: if the model is already dirty at the moment the readiness signal
resolves, the `ready.then` callback subscribes and immediately acquires a
token via `app.setDirty` — one more acquire call, with the fresh token
stored in `disposable` and held — even though no dirty-transition
notification was delivered to the tracker. -/
theorem c2_ready_reconciliation (s : TrackerState) (hd : s.modelDirty = true) :
    (step s Ev.ready).acquireCount = s.acquireCount + 1 ∧
    (step s Ev.ready).disposable = some s.next ∧
    (step s Ev.ready).subscribed = true ∧
    s.next ∈ (step s Ev.ready).held := by
  rw [step_ready_dirty s hd]
  exact ⟨rfl, rfl, rfl, List.mem_cons_self _ _⟩

/-- Witness for C2: the model turns dirty before readiness (the notification
is not delivered to the unsubscribed tracker, so no acquire happens), and
the readiness reconciliation then performs the one acquire call. -/
theorem c2_witness :
    (runEvs (initState false) [Ev.state "dirty" true]).acquireCount = 0 ∧
    (step (runEvs (initState false) [Ev.state "dirty" true]) Ev.ready).acquireCount =
      (runEvs (initState false) [Ev.state "dirty" true]).acquireCount + 1 :=
  ⟨by decide,
    (c2_ready_reconciliation (runEvs (initState false) [Ev.state "dirty" true])
      (by decide)).1⟩

/-- C3 counterexample: a context acquires a token, is disposed (first
dispose call on token 0), and then receives a stateChanged(dirty, false)
notification — which the source does not ignore: `disposable` was never
nulled, so `.dispose()` runs a second time on the same token, giving the
release trail [0, 0] instead of exactly one release.  Moreover the disposed
context is not removed from the weak tracking set. -/
theorem c3_counterexample :
    (runEvs (initState false)
      [Ev.ready, Ev.state "dirty" true, Ev.disposed,
        Ev.state "dirty" false]).disposeCalls = [0, 0] ∧
    (orun openerInit [OEv.openWidget 3, OEv.disposeCtx 3]).contexts = [3] := by
  decide

/-- C3 (amended): delivering the disposal notification to a context that
holds a token issues exactly one release call at that step (the trail grows
by exactly that token) and no acquire call; freedom from any further
acquire/release activity holds only when no state-change notifications are
delivered after disposal, as the collaborator contract guarantees, because
the source neither nulls `disposable` nor disconnects the handler; the
context also stays in the weak tracking set. -/
theorem c3_amended_disposal_single_release (s : TrackerState) (t : Nat)
    (hd : s.disposable = some t) :
    (step s Ev.disposed).disposeCalls = s.disposeCalls ++ [t] ∧
    (step s Ev.disposed).held = s.held.erase t ∧
    (step s Ev.disposed).acquireCount = s.acquireCount := by
  rw [step_disposed_some s hd]
  exact ⟨rfl, rfl, rfl⟩

/-- Witness for C3 (amended): a context that became dirty at readiness holds
token 0; its disposal appends exactly one release call for it. -/
theorem c3_amended_witness :
    (step (runEvs (initState true) [Ev.ready]) Ev.disposed).disposeCalls =
      (runEvs (initState true) [Ev.ready]).disposeCalls ++ [0] ∧
    (step (runEvs (initState true) [Ev.ready]) Ev.disposed).held =
      (runEvs (initState true) [Ev.ready]).held.erase 0 ∧
    (step (runEvs (initState true) [Ev.ready]) Ev.disposed).acquireCount =
      (runEvs (initState true) [Ev.ready]).acquireCount :=
  c3_amended_disposal_single_release (runEvs (initState true) [Ev.ready]) 0 (by decide)

/-- C4 counterexample: the source never cancels the `stateChanged`
subscription — not on disposal or anywhere else.  After the trace ready,
disposed the subscription is still installed, and a further
stateChanged(dirty, true) notification still drives the handler, which even
performs a fresh acquire call: a live subscription references the context
after disposal, refuting cancelled-exactly-once-on-disposal. -/
theorem c4_counterexample :
    (runEvs (initState false) [Ev.ready, Ev.disposed]).subscribed = true ∧
    (step (runEvs (initState false) [Ev.ready, Ev.disposed])
        (Ev.state "dirty" true)).acquireCount =
      (runEvs (initState false) [Ev.ready, Ev.disposed]).acquireCount + 1 := by
  decide

/-- C4 (amended): after a context's disposal notification (delivered as the
final event of a trace in which readiness resolved at most once) the context
holds no token; but the tracker's `stateChanged` subscription is never
cancelled by the tracker — the disposal step leaves the subscription flag
exactly as it was (its teardown is left to the collaborator). -/
theorem c4_amended_disposal_cleanup (d : Bool) (evs : List Ev)
    (hready : countReady evs ≤ 1) (hnd : Ev.disposed ∉ evs) :
    (runEvs (initState d) (evs ++ [Ev.disposed])).held = [] ∧
    (runEvs (initState d) (evs ++ [Ev.disposed])).subscribed =
      (runEvs (initState d) evs).subscribed := by
  have hg : Good (runEvs (initState d) evs) :=
    good_run evs (initState d) (good_initState d) hnd
      (fun h => Bool.noConfusion h) hready
  rw [runEvs_append]
  have h := good_step_disposed _ hg
  exact ⟨h.1, h.2.1⟩

/-- Witness for C4 (amended) at the trace ready, stateChanged(dirty, true)
followed by disposal. -/
theorem c4_amended_witness :
    (runEvs (initState false)
        ([Ev.ready, Ev.state "dirty" true] ++ [Ev.disposed])).held = [] ∧
    (runEvs (initState false)
        ([Ev.ready, Ev.state "dirty" true] ++ [Ev.disposed])).subscribed =
      (runEvs (initState false) [Ev.ready, Ev.state "dirty" true]).subscribed :=
  c4_amended_disposal_cleanup false [Ev.ready, Ev.state "dirty" true]
    (by decide) (by decide)

/-- C5: for a subscribed (tracked and ready) context, two consecutive
stateChanged(dirty, true) notifications with no intervening false cause
exactly one `app.setDirty` call when no token is held (the second
notification finds `disposable` non-null and does nothing), and are a
complete no-op — not an error — when a token is already held. -/
theorem c5_idempotent_acquire (s : TrackerState) (hsub : s.subscribed = true) :
    (s.disposable = none →
      (runEvs s [Ev.state "dirty" true, Ev.state "dirty" true]).acquireCount =
        s.acquireCount + 1 ∧
      (runEvs s [Ev.state "dirty" true, Ev.state "dirty" true]).disposable =
        some s.next) ∧
    (∀ t, s.disposable = some t →
      runEvs s [Ev.state "dirty" true, Ev.state "dirty" true] =
        { s with modelDirty := true }) := by
  constructor
  · intro hd
    simp only [runEvs]
    rw [step_dirty_true_acquire s hsub hd]
    rw [step_dirty_true_noop
      { s with
        modelDirty := true, disposable := some s.next, next := s.next + 1,
        held := s.next :: s.held, acquireCount := s.acquireCount + 1 } hsub rfl]
    exact ⟨rfl, rfl⟩
  · intro t hd
    simp only [runEvs]
    rw [step_dirty_true_noop s hsub hd]
    exact step_dirty_true_noop { s with modelDirty := true } hsub hd

/-- Witness for C5 at the post-ready clean state: the double notification
yields exactly one acquire. -/
theorem c5_witness :
    (runEvs (step (initState false) Ev.ready)
        [Ev.state "dirty" true, Ev.state "dirty" true]).acquireCount =
      (step (initState false) Ev.ready).acquireCount + 1 ∧
    (runEvs (step (initState false) Ev.ready)
        [Ev.state "dirty" true, Ev.state "dirty" true]).disposable =
      some (step (initState false) Ev.ready).next :=
  (c5_idempotent_acquire (step (initState false) Ev.ready) (by decide)).1 (by decide)

/-- C6: along any finite sequence of dirty notifications delivered to a
tracked, ready context, at every prefix the release calls never outnumber
the acquire calls (and acquires exceed releases by at most one, so the calls
come in matched pairs); over the whole sequence — and even after a final
disposal — no token's dispose is ever called twice (the release trail has no
duplicates). -/
theorem c6_matched_pairs (d : Bool) (bs : List Bool) :
    (∀ pre suf : List Bool, bs = pre ++ suf →
      (runEvs (step (initState d) Ev.ready)
          (pre.map (Ev.state "dirty"))).disposeCalls.length ≤
        (runEvs (step (initState d) Ev.ready)
          (pre.map (Ev.state "dirty"))).acquireCount ∧
      (runEvs (step (initState d) Ev.ready)
          (pre.map (Ev.state "dirty"))).acquireCount ≤
        (runEvs (step (initState d) Ev.ready)
          (pre.map (Ev.state "dirty"))).disposeCalls.length + 1) ∧
    (runEvs (step (initState d) Ev.ready)
      (bs.map (Ev.state "dirty"))).disposeCalls.Nodup ∧
    (step (runEvs (step (initState d) Ev.ready) (bs.map (Ev.state "dirty")))
      Ev.disposed).disposeCalls.Nodup := by
  have hg0 : Good (step (initState d) Ev.ready) :=
    good_step_ready (initState d) (good_initState d) rfl
  have hGood : ∀ cs : List Bool,
      Good (runEvs (step (initState d) Ev.ready) (cs.map (Ev.state "dirty"))) := by
    intro cs
    refine good_run (cs.map (Ev.state "dirty")) _ hg0
      (disposed_not_mem_map_state cs) (fun _ => ready_not_mem_map_state cs) ?_
    rw [countReady_map_state]
    omega
  have hbal : ∀ s' : TrackerState, Good s' →
      s'.disposeCalls.length ≤ s'.acquireCount ∧
      s'.acquireCount ≤ s'.disposeCalls.length + 1 := by
    intro s' hgood
    rcases hgood with ⟨_, _, _, _, _, h6⟩
    rw [h6]
    constructor <;> (split <;> omega)
  refine ⟨?_, (hGood bs).2.2.2.1, ((good_step_disposed _ (hGood bs)).2.2.2.1)⟩
  intro pre suf _
  exact hbal _ (hGood pre)

/-- Witness for C6 on the rapid toggle true, false, true, false with the
prefix true, false. -/
theorem c6_witness :
    ((runEvs (step (initState false) Ev.ready)
        (([true, false] : List Bool).map (Ev.state "dirty"))).disposeCalls.length ≤
      (runEvs (step (initState false) Ev.ready)
        (([true, false] : List Bool).map (Ev.state "dirty"))).acquireCount ∧
    (runEvs (step (initState false) Ev.ready)
        (([true, false] : List Bool).map (Ev.state "dirty"))).acquireCount ≤
      (runEvs (step (initState false) Ev.ready)
        (([true, false] : List Bool).map (Ev.state "dirty"))).disposeCalls.length + 1) ∧
    (runEvs (step (initState false) Ev.ready)
      (([true, false, true, false] : List Bool).map (Ev.state "dirty"))).disposeCalls.Nodup :=
  ⟨(c6_matched_pairs false [true, false, true, false]).1 [true, false] [true, false] rfl,
    (c6_matched_pairs false [true, false, true, false]).2.1⟩

/-- C7 counterexample: after a widget for context 0 is opened and context 0
is disposed, the context is still in the weak tracked set — the source
registers no handler that removes it on disposal (removal happens only when
the garbage collector reclaims the context), refuting removed-on-disposal. -/
theorem c7_counterexample :
    (orun openerInit [OEv.openWidget 0, OEv.disposeCtx 0]).contexts = [0] := by
  decide

/-- C7 (amended): the tracked set contains each context at most once and
`handleContext` runs at most once per context (opening a widget for an
already-tracked context is a no-op); a disposed context is never re-added —
but it is not removed from the weak set on disposal, so the set's members
always remain exactly the contexts ever handled. -/
theorem c7_amended_tracked_once (evs : List OEv) :
    (orun openerInit evs).contexts.Nodup ∧
    (orun openerInit evs).handleCalls.Nodup ∧
    (∀ c, c ∈ (orun openerInit evs).contexts ↔ c ∈ (orun openerInit evs).handleCalls) :=
  orun_inv evs openerInit List.nodup_nil List.nodup_nil (fun c => by
    show c ∈ ([] : List Nat) ↔ c ∈ ([] : List Nat)
    exact Iff.rfl)

/-- C8 counterexample: context 5 is opened and then disposed before its
readiness ever resolves, yet it is not forgotten — it remains in the weak
tracked set (the source removes nothing on disposal), refuting the claim's
"the context is forgotten". -/
theorem c8_counterexample :
    (orun openerInit
      [OEv.openWidget 5, OEv.openWidget 7, OEv.disposeCtx 5]).contexts = [7, 5] := by
  decide

/-- C8 (amended): the disposal handler is registered synchronously in
`handleContext`, before the readiness wait, so a context disposed before it
ever becomes ready is cleaned up: after any trace containing a disposal but
no readiness resolution, no token is held, no acquire call was ever made on
the context's behalf, no release call was made, the disposal was recorded,
and the tracker never subscribed.  The context does, however, remain in the
weak tracked set. -/
theorem c8_amended_pre_ready_disposal (d : Bool) (pre post : List Ev)
    (h1 : Ev.ready ∉ pre) (h2 : Ev.ready ∉ post) :
    (runEvs (initState d) (pre ++ Ev.disposed :: post)).held = [] ∧
    (runEvs (initState d) (pre ++ Ev.disposed :: post)).acquireCount = 0 ∧
    (runEvs (initState d) (pre ++ Ev.disposed :: post)).disposeCalls = [] ∧
    (runEvs (initState d) (pre ++ Ev.disposed :: post)).disposedFlag = true ∧
    (runEvs (initState d) (pre ++ Ev.disposed :: post)).subscribed = false := by
  have hpre := noReady_run pre (initState d) h1 rfl rfl
  rw [runEvs_append]
  simp only [runEvs]
  rw [step_disposed_none (runEvs (initState d) pre) hpre.2.1]
  have hpost := noReady_run post { runEvs (initState d) pre with disposedFlag := true }
    h2 hpre.1 hpre.2.1
  refine ⟨?_, ?_, ?_, hpost.2.2.2.2.2 rfl, hpost.1⟩
  · rw [hpost.2.2.2.1]
    exact hpre.2.2.2.1
  · rw [hpost.2.2.1]
    exact hpre.2.2.1
  · rw [hpost.2.2.2.2.1]
    exact hpre.2.2.2.2.1

/-- Witness for C8 (amended): the model toggles dirty around a pre-ready
disposal; nothing is ever acquired or released. -/
theorem c8_amended_witness :
    (runEvs (initState false)
      ([Ev.state "dirty" true] ++ Ev.disposed :: [Ev.state "dirty" false])).held = [] ∧
    (runEvs (initState false)
      ([Ev.state "dirty" true] ++ Ev.disposed :: [Ev.state "dirty" false])).acquireCount = 0 ∧
    (runEvs (initState false)
      ([Ev.state "dirty" true] ++ Ev.disposed :: [Ev.state "dirty" false])).disposeCalls = [] ∧
    (runEvs (initState false)
      ([Ev.state "dirty" true] ++ Ev.disposed :: [Ev.state "dirty" false])).disposedFlag = true ∧
    (runEvs (initState false)
      ([Ev.state "dirty" true] ++ Ev.disposed :: [Ev.state "dirty" false])).subscribed = false :=
  c8_amended_pre_ready_disposal false [Ev.state "dirty" true] [Ev.state "dirty" false]
    (by decide) (by decide)

/-- C9: along any trace in which the readiness signal never resolves, the
tracker never subscribes to `stateChanged`, never acquires a token, and
never holds or releases anything — the context is silently inert, with no
error reported (the embedding has no failure outcome: every event is simply
absorbed). -/
theorem c9_never_ready_inert (d : Bool) (evs : List Ev) (h : Ev.ready ∉ evs) :
    (runEvs (initState d) evs).subscribed = false ∧
    (runEvs (initState d) evs).disposable = none ∧
    (runEvs (initState d) evs).acquireCount = 0 ∧
    (runEvs (initState d) evs).held = [] ∧
    (runEvs (initState d) evs).disposeCalls = [] := by
  have hh := noReady_run evs (initState d) h rfl rfl
  exact ⟨hh.1, hh.2.1, hh.2.2.1, hh.2.2.2.1, hh.2.2.2.2.1⟩

/-- Witness for C9 on a trace where the model turns dirty and the context is
disposed, with readiness never resolving. -/
theorem c9_witness :
    (runEvs (initState true)
      [Ev.state "dirty" true, Ev.disposed, Ev.state "dirty" false]).subscribed = false ∧
    (runEvs (initState true)
      [Ev.state "dirty" true, Ev.disposed, Ev.state "dirty" false]).disposable = none ∧
    (runEvs (initState true)
      [Ev.state "dirty" true, Ev.disposed, Ev.state "dirty" false]).acquireCount = 0 ∧
    (runEvs (initState true)
      [Ev.state "dirty" true, Ev.disposed, Ev.state "dirty" false]).held = [] ∧
    (runEvs (initState true)
      [Ev.state "dirty" true, Ev.disposed, Ev.state "dirty" false]).disposeCalls = [] :=
  c9_never_ready_inert true [Ev.state "dirty" true, Ev.disposed, Ev.state "dirty" false]
    (by decide)

/-- C10: the delete-file command throws (and never reaches
`docManager.deleteFile`) exactly when the path argument is missing or the
empty string, and otherwise returns the result of delegating to
`docManager.deleteFile(path)`. -/
theorem c10_delete_file_requires_path (argsPath : Option String) :
    ((argsPath = none ∨ argsPath = some "") →
      deleteFileExecute argsPath =
        .thrown ("A non-empty path is required for " ++ deleteFileCommandId ++ ".")) ∧
    (∀ p, argsPath = some p → p ≠ "" → deleteFileExecute argsPath = .delegated p) := by
  constructor
  · rintro (rfl | rfl) <;> decide
  · rintro p rfl hp
    simp [deleteFileExecute, hp]

/-- Witness for C10: a concrete missing path throws; a concrete non-empty
path is delegated. -/
theorem c10_witness :
    deleteFileExecute (some "a.txt") = .delegated "a.txt" ∧
    deleteFileExecute none =
      .thrown ("A non-empty path is required for " ++ deleteFileCommandId ++ ".") :=
  ⟨(c10_delete_file_requires_path (some "a.txt")).2 "a.txt" rfl (by decide),
    (c10_delete_file_requires_path none).1 (Or.inl rfl)⟩
